import Mathlib

/-!
kubenab: admission decision engine

A shallow embedding of `cmd/kubenab/main.go`: the namespace and registry
classifiers (`contains`, `containsRegisty`), the image rewriter
(`handleContainer`), and the mutate and validate admission handlers.

Go strings are modelled by `String`; the program only compares, concatenates,
searches and splits them on the one-byte separators "/" and ",", and on valid
UTF-8 text these operations agree on bytes and on characters.
-/

namespace Kubenab

/-! ## Go standard library: package `strings` -/

namespace strings

/-- Substring search of `strings.Contains` (`Index(s, substr) >= 0`) on character
lists: `substr` starts at the current position or at a later one. -/
def containsChars (s substr : List Char) : Bool :=
  substr.isPrefixOf s ||
    match s with
    | [] => false
    | _ :: rest => containsChars rest substr

/-- Go `strings.Contains(s, substr)`: reports whether `substr` is within `s`. -/
def Contains (s substr : String) : Bool :=
  containsChars s.data substr.data

/-- Pieces of a character list between occurrences of the separator `sep`;
`cur` holds (reversed) the characters of the piece being read. -/
def splitChars (sep : Char) (cur : List Char) : List Char → List (List Char)
  | [] => [cur.reverse]
  | c :: rest =>
    if c = sep then cur.reverse :: splitChars sep [] rest
    else splitChars sep (c :: cur) rest

/-- Go `strings.Split(s, sep)` for a one-character separator (the program calls it
with "/" and "," only): all pieces of `s` between separators, one more than the
number of separators. -/
def Split (s : String) (sep : Char) : List String :=
  (splitChars sep [] s.data).map String.mk

/-- Go `strings.Join(elems, sep)`: the elements concatenated with `sep` between
each two of them. -/
def Join (elems : List String) (sep : String) : String :=
  match elems with
  | [] => ""
  | [a] => a
  | a :: rest => a ++ sep ++ Join rest sep

end strings

/-! ## Data model -/

/-- Go `[]byte`. -/
abbrev Bytes := List UInt8

/-- Fields of `v1.Container`; only `Image` is read or written by the program, the
others stand for the fields that are copied along. -/
structure Container where
  Name : String
  Image : String
  Command : List String
  Args : List String
  WorkingDir : String
  deriving DecidableEq, Repr

/-- The container populations of `v1.PodSpec`. -/
structure PodSpec where
  InitContainers : List Container
  Containers : List Container
  deriving DecidableEq, Repr

/-- Go `v1.Pod`. -/
structure Pod where
  Spec : PodSpec
  deriving DecidableEq, Repr

/-- Go `v1.LocalObjectReference`. -/
structure LocalObjectReference where
  Name : String
  deriving DecidableEq, Repr

/-- The two dynamic types stored in the `Value interface{}` field of a `patch`. -/
inductive PatchValue where
  | containers (cs : List Container)
  | localObjectReferences (refs : List LocalObjectReference)
  deriving DecidableEq, Repr

/-- Go `type patch struct { Op, Path string; Value interface{} }`. -/
structure patch where
  Op : String
  Path : String
  Value : PatchValue
  deriving DecidableEq, Repr

/-- Go `metav1.StatusCause` (the `Message` field). -/
structure StatusCause where
  Message : String
  deriving DecidableEq, Repr

/-- Go `metav1.StatusDetails` (the `Causes` field). -/
structure StatusDetails where
  Causes : List StatusCause
  deriving DecidableEq, Repr

/-- Go `metav1.Status`; `Details` is a pointer. -/
structure Status where
  Reason : String
  Details : Option StatusDetails
  deriving DecidableEq, Repr

/-- Go `metav1.StatusReasonInvalid`. -/
def StatusReasonInvalid : String := "Invalid"

/-- Go `v1beta1.PatchTypeJSONPatch`. -/
def PatchTypeJSONPatch : String := "JSONPatch"

/-- Go `runtime.RawExtension`. -/
structure RawExtension where
  Raw : Bytes
  deriving DecidableEq, Repr

/-- Go `v1beta1.AdmissionRequest` (the fields the program reads). -/
structure AdmissionRequest where
  Namespace : String
  Object : RawExtension
  deriving DecidableEq, Repr

/-- Go `v1beta1.AdmissionResponse`; `Result` and `PatchType` are pointers and
`Patch` is a byte slice that is nil unless assigned. -/
structure AdmissionResponse where
  Allowed : Bool
  Result : Option Status
  Patch : Option Bytes
  PatchType : Option String
  deriving DecidableEq, Repr

/-- Go `v1beta1.AdmissionReview`; both fields are pointers. -/
structure AdmissionReview where
  Request : Option AdmissionRequest
  Response : Option AdmissionResponse
  deriving DecidableEq, Repr

/-- The package-level variables of lines 41-48, fixed before the first request. -/
structure Config where
  dockerRegistryUrl : String
  registrySecretName : String
  whitelistedNamespaces : List String
  whitelistedRegistries : List String
  deriving DecidableEq, Repr

/-- Initialisation of the package-level variables from the environment
(lines 41-48): both whitelists are the comma-split of their variable. -/
def Config.load (getenv : String → String) : Config :=
  { dockerRegistryUrl := getenv "DOCKER_REGISTRY_URL"
    registrySecretName := getenv "REGISTRY_SECRET_NAME"
    whitelistedNamespaces := strings.Split (getenv "WHITELIST_NAMESPACES") ','
    whitelistedRegistries := strings.Split (getenv "WHITELIST_REGISTRIES") ',' }

/-- The calls into `encoding/json`, each of which may fail. -/
structure JSON where
  unmarshalAdmissionReview : Bytes → Option AdmissionReview
  unmarshalPod : Bytes → Option Pod
  marshalPatches : List patch → Option Bytes
  marshalAdmissionReview : AdmissionReview → Option Bytes

/-- How a handler invocation ends: a status line with an optional body, or a
run-time panic (nil pointer dereference). -/
inductive Served where
  | status (code : Nat) (body : Option Bytes)
  | panic
  deriving DecidableEq, Repr

/-- Go `http.StatusOK`. -/
def StatusOK : Nat := 200
/-- Go `http.StatusBadRequest`. -/
def StatusBadRequest : Nat := 400
/-- Go `http.StatusInternalServerError`. -/
def StatusInternalServerError : Nat := 500

/-! ## Classifiers (lines 300-318) -/

/-- Go `contains`: some entry of `arr` equals `str` or has `str` as a substring. -/
def contains (arr : List String) (str : String) : Bool :=
  match arr with
  | [] => false
  | a :: rest =>
    if a == str || strings.Contains a str then true
    else contains rest str

/-- Go `containsRegisty`: some entry of `arr` equals `str` or is a substring of
`str`. -/
def containsRegisty (arr : List String) (str : String) : Bool :=
  match arr with
  | [] => false
  | a :: rest =>
    if a == str || strings.Contains str a then true
    else containsRegisty rest str

/-! ## Mutation (lines 79-204) -/

/-- Go `handleContainer` (lines 181-204). The container is passed by pointer; the
model returns the container as it is after the call, with the boolean result. -/
def handleContainer (cfg : Config) (container : Container) (dockerRegistryUrl : String) :
    Container × Bool :=
  if !containsRegisty cfg.whitelistedRegistries container.Image then
    let imageParts := strings.Split container.Image '/'
    let newImage :=
      if imageParts.length < 3 then
        dockerRegistryUrl ++ "/" ++ container.Image
      else
        strings.Join (imageParts.set 0 dockerRegistryUrl) "/"
    ({ container with Image := newImage }, true)
  else
    (container, false)

/-- The loops of lines 114-123 and 126-135, which differ in the path only: every
container goes through `handleContainer`, and when it returns true a patch with
the container (as left by the call) is appended to `patches`. -/
def handleContainers (cfg : Config) (path : String) :
    List Container → List patch → List patch
  | [], patches => patches
  | container :: rest, patches =>
    match handleContainer cfg container cfg.dockerRegistryUrl with
    | (container, createPatch) =>
      if createPatch then
        handleContainers cfg path rest
          (patches ++ [{ Op := "add", Path := path, Value := .containers [container] }])
      else
        handleContainers cfg path rest patches

/-- Lines 104-138: the value of `patches` after the namespace gate; a pod that does
not decode ends the request with status 400. -/
def recordPatches (cfg : Config) (json : JSON) (request : AdmissionRequest) :
    Except Served (List patch) :=
  let ns := request.Namespace
  let patches : List patch := []
  if !contains cfg.whitelistedNamespaces ns then
    match json.unmarshalPod request.Object.Raw with
    | none => .error (.status StatusBadRequest none)
    | some pod =>
      let patches := handleContainers cfg "/spec/containers" pod.Spec.Containers patches
      let patches := handleContainers cfg "/spec/initContainers" pod.Spec.InitContainers patches
      .ok patches
  else
    .ok patches

/-- The pull-secret operation of lines 144-152. -/
def pullSecretPatch (cfg : Config) : patch :=
  { Op := "add", Path := "/spec/imagePullSecrets",
    Value := .localObjectReferences [{ Name := cfg.registrySecretName }] }

/-- Lines 103-164: the admission response of the mutate handler for a decoded
request; a patch list that does not serialise ends the request with status 400. -/
def mutateAdmissionResponse (cfg : Config) (json : JSON) (request : AdmissionRequest) :
    Except Served AdmissionResponse :=
  let admissionResponse : AdmissionResponse :=
    { Allowed := false, Result := none, Patch := none, PatchType := none }
  match recordPatches cfg json request with
  | .error served => .error served
  | .ok patches =>
    let admissionResponse := { admissionResponse with Allowed := true }
    if patches.length > 0 then
      let patches := patches ++ [pullSecretPatch cfg]
      match json.marshalPatches patches with
      | none => .error (.status StatusBadRequest none)
      | some patchContent =>
        .ok { admissionResponse with
                Patch := some patchContent, PatchType := some PatchTypeJSONPatch }
    else
      .ok admissionResponse

/-- Lines 84-100 and 211-227, the same in both handlers: read the body, decode the
envelope, dereference `ar.Request`. -/
def readRequest (json : JSON) (body : Option Bytes) : Except Served AdmissionRequest :=
  match body with
  | none => .error (.status StatusBadRequest none)
  | some data =>
    match json.unmarshalAdmissionReview data with
    | none => .error (.status StatusBadRequest none)
    | some ar =>
      match ar.Request with
      | none => .error .panic
      | some request => .ok request

/-- Lines 166-178 and 274-286, the same in both handlers: wrap the response in a
fresh envelope, serialise and write it. -/
def writeResponse (json : JSON) (admissionResponse : AdmissionResponse) : Served :=
  let ar : AdmissionReview := { Request := none, Response := some admissionResponse }
  match json.marshalAdmissionReview ar with
  | none => .status StatusInternalServerError none
  | some data => .status StatusOK (some data)

/-- Go `mutateAdmissionReviewHandler` (lines 79-179); `body` is the result of
reading the request body (`none` when the read fails). -/
def mutateAdmissionReviewHandler (cfg : Config) (json : JSON) (body : Option Bytes) : Served :=
  match readRequest json body with
  | .error served => served
  | .ok request =>
    match mutateAdmissionResponse cfg json request with
    | .error served => served
    | .ok admissionResponse => writeResponse json admissionResponse

/-! ## Validation (lines 206-298) -/

/-- Go `getInvalidContainerResponse` (lines 289-298). -/
def getInvalidContainerResponse (message : String) : Status :=
  { Reason := StatusReasonInvalid
    Details := some { Causes := [{ Message := message }] } }

/-- The loops of lines 240-252 and 255-267, which differ in a log line only. The
boolean of the result tells whether the loop left through `goto done`. -/
def inspectContainers (cfg : Config) :
    List Container → AdmissionResponse → AdmissionResponse × Bool
  | [], admissionResponse => (admissionResponse, false)
  | container :: rest, admissionResponse =>
    if !containsRegisty cfg.whitelistedRegistries container.Image then
      let message := "Image is not being pulled from Private Registry: " ++ container.Image
      ({ admissionResponse with Result := some (getInvalidContainerResponse message) }, true)
    else
      inspectContainers cfg rest { admissionResponse with Allowed := true }

/-- Lines 230-273: the admission response of the validate handler for a decoded
request, as it stands at the label `done`. -/
def validateAdmissionResponse (cfg : Config) (json : JSON) (request : AdmissionRequest) :
    Except Served AdmissionResponse :=
  let ns := request.Namespace
  let admissionResponse : AdmissionResponse :=
    { Allowed := false, Result := none, Patch := none, PatchType := none }
  if !contains cfg.whitelistedNamespaces ns then
    match json.unmarshalPod request.Object.Raw with
    | none => .error (.status StatusBadRequest none)
    | some pod =>
      match inspectContainers cfg pod.Spec.Containers admissionResponse with
      | (admissionResponse, true) => .ok admissionResponse
      | (admissionResponse, false) =>
        .ok (inspectContainers cfg pod.Spec.InitContainers admissionResponse).1
  else
    .ok { admissionResponse with Allowed := true }

/-- Go `validateAdmissionReviewHandler` (lines 206-287). -/
def validateAdmissionReviewHandler (cfg : Config) (json : JSON) (body : Option Bytes) :
    Served :=
  match readRequest json body with
  | .error served => served
  | .ok request =>
    match validateAdmissionResponse cfg json request with
    | .error served => served
    | .ok admissionResponse => writeResponse json admissionResponse

/-! ## The image rewriter in the words of the specification -/

/-- Section 4.3 of the specification, in its words: split the reference on "/";
with fewer than three segments prepend the target registry and "/" to the
unchanged reference, otherwise replace the first segment by the target registry
and rejoin with "/". -/
def ImageRewriter (imageRef targetRegistry : String) : String :=
  let segments := strings.Split imageRef '/'
  if segments.length < 3 then targetRegistry ++ "/" ++ imageRef
  else strings.Join (targetRegistry :: segments.tail) "/"

/-- The operation the mutation engine is expected to record for one container of
the population at `path`: none for an approved image, otherwise an "add" at `path`
whose value is the one-element list with the container, its image rewritten. -/
def expectedPatch (cfg : Config) (path : String) (c : Container) : Option patch :=
  if containsRegisty cfg.whitelistedRegistries c.Image then none
  else some { Op := "add", Path := path,
              Value := .containers [{ c with Image := ImageRewriter c.Image cfg.dockerRegistryUrl }] }

/-- The cause message of a rejected image. -/
def rejectionMessage (image : String) : String :=
  "Image is not being pulled from Private Registry: " ++ image

/-! ## Sample data -/

/-- A container with the given image and no other field set. -/
def imageContainer (image : String) : Container :=
  { Name := "", Image := image, Command := [], Args := [], WorkingDir := "" }

/-- A request in the given namespace with an empty raw object. -/
def sampleRequest (ns : String) : AdmissionRequest :=
  { Namespace := ns, Object := { Raw := [] } }

/-- A codec that decodes every raw object to the given pod and serialises every
value to the empty byte string. -/
def sampleJSON (pod : Pod) : JSON :=
  { unmarshalAdmissionReview := fun _ => some { Request := some (sampleRequest "default"), Response := none }
    unmarshalPod := fun _ => some pod
    marshalPatches := fun _ => some []
    marshalAdmissionReview := fun _ => some [] }

/-- The configuration of scenarios A to C: target registry and registry whitelist
"myregistry.io", pull secret "reg-secret", namespace whitelist "kube-system". -/
def sampleConfig : Config :=
  { dockerRegistryUrl := "myregistry.io"
    registrySecretName := "reg-secret"
    whitelistedNamespaces := ["kube-system"]
    whitelistedRegistries := ["myregistry.io"] }

/-- A pod with the given containers and init containers. -/
def samplePod (containers initContainers : List Container) : Pod :=
  { Spec := { InitContainers := initContainers, Containers := containers } }

/-- Scenario A: one container "nginx:latest". -/
def podA : Pod := samplePod [imageContainer "nginx:latest"] []

/-- Scenario B: one container already on the private registry. -/
def podB : Pod := samplePod [imageContainer "myregistry.io/app:1.0"] []

/-- Scenario C: one container from another registry. -/
def podC : Pod := samplePod [imageContainer "docker.io/library/nginx"] []

/-- An approved container followed by a container from another registry. -/
def podMixed : Pod :=
  samplePod [imageContainer "myregistry.io/app:1.0", imageContainer "docker.io/library/nginx"] []

/-- Two containers and two init containers, none from the private registry. -/
def podMany : Pod :=
  samplePod [imageContainer "nginx:latest", imageContainer "redis:7"]
    [imageContainer "busybox", imageContainer "alpine:3"]

/-- Scenario E: a pod with no container and no init container. -/
def podEmpty : Pod := samplePod [] []

/-- The codec `sampleJSON pod` with a patch serialisation that fails. -/
def failingPatchJSON (pod : Pod) : JSON :=
  { sampleJSON pod with marshalPatches := fun _ => none }

/-- The codec `sampleJSON pod` with a pod decoder that fails. -/
def failingPodJSON (pod : Pod) : JSON :=
  { sampleJSON pod with unmarshalPod := fun _ => none }

/-- A codec that decodes every body to an envelope without a request, as
`json.Unmarshal` does for a JSON object that has no "request" member. -/
def nilRequestJSON : JSON :=
  { sampleJSON podA with
      unmarshalAdmissionReview := fun _ => some { Request := none, Response := none } }

/-- The pod after a mutation: every container and init container carries the image
that `handleContainer` leaves in it for the configured target registry (the
rewritten reference when the image is not approved). -/
def rewrittenPod (cfg : Config) (pod : Pod) : Pod :=
  { Spec :=
      { Containers :=
          pod.Spec.Containers.map (fun c => (handleContainer cfg c cfg.dockerRegistryUrl).1)
        InitContainers :=
          pod.Spec.InitContainers.map (fun c => (handleContainer cfg c cfg.dockerRegistryUrl).1) } }

/-- The configuration loaded when no environment variable is set: both whitelists
are the split of the empty string. -/
def unsetConfig : Config := Config.load (fun _ => "")

/-! ## Lemmas on the string helpers -/

theorem strings.containsChars_iff (s substr : List Char) :
    strings.containsChars s substr = true ↔ substr <:+: s := by
  induction s with
  | nil =>
    unfold strings.containsChars
    cases substr <;> simp [List.isPrefixOf]
  | cons c rest ih =>
    unfold strings.containsChars
    rw [Bool.or_eq_true, ih, List.infix_cons_iff, List.isPrefixOf_iff_prefix]

theorem strings.Contains_iff (s substr : String) :
    strings.Contains s substr = true ↔ substr.data <:+: s.data :=
  strings.containsChars_iff _ _

theorem contains_iff (arr : List String) (str : String) :
    contains arr str = true ↔ ∃ a ∈ arr, a = str ∨ str.data <:+: a.data := by
  induction arr with
  | nil => simp [contains]
  | cons a rest ih =>
    unfold contains
    by_cases h : (a == str || strings.Contains a str) = true
    · rw [if_pos h]
      simp only [Bool.or_eq_true, beq_iff_eq, strings.Contains_iff] at h
      simp only [List.mem_cons, exists_eq_or_imp, true_iff]
      exact Or.inl h
    · rw [if_neg h, ih]
      simp only [Bool.or_eq_true, beq_iff_eq, strings.Contains_iff] at h
      simp only [List.mem_cons, exists_eq_or_imp]
      exact ⟨Or.inr, fun h2 => h2.resolve_left h⟩

theorem containsRegisty_iff (arr : List String) (str : String) :
    containsRegisty arr str = true ↔ ∃ a ∈ arr, a = str ∨ a.data <:+: str.data := by
  induction arr with
  | nil => simp [containsRegisty]
  | cons a rest ih =>
    unfold containsRegisty
    by_cases h : (a == str || strings.Contains str a) = true
    · rw [if_pos h]
      simp only [Bool.or_eq_true, beq_iff_eq, strings.Contains_iff] at h
      simp only [List.mem_cons, exists_eq_or_imp, true_iff]
      exact Or.inl h
    · rw [if_neg h, ih]
      simp only [Bool.or_eq_true, beq_iff_eq, strings.Contains_iff] at h
      simp only [List.mem_cons, exists_eq_or_imp]
      exact ⟨Or.inr, fun h2 => h2.resolve_left h⟩

theorem strings.Join_cons_cons (a b : String) (rest : List String) (sep : String) :
    strings.Join (a :: b :: rest) sep = a ++ sep ++ strings.Join (b :: rest) sep := by
  rw [strings.Join]
  simp

theorem strings.splitChars_ne_nil (sep : Char) (cur s : List Char) :
    strings.splitChars sep cur s ≠ [] := by
  induction s generalizing cur with
  | nil => simp [strings.splitChars]
  | cons c rest ih =>
    unfold strings.splitChars
    split
    · simp
    · exact ih _

/-- The first piece of a split is what precedes the first separator; the other
pieces are the split of what follows it. -/
theorem strings.splitChars_eq (sep : Char) (cur s : List Char) :
    strings.splitChars sep cur s =
      (cur.reverse ++ s.takeWhile (fun c => c != sep)) ::
        (match s.dropWhile (fun c => c != sep) with
         | [] => []
         | _ :: rest => strings.splitChars sep [] rest) := by
  induction s generalizing cur with
  | nil => simp [strings.splitChars]
  | cons c rest ih =>
    rw [strings.splitChars]
    by_cases h : c = sep
    · subst h
      simp
    · rw [if_neg h, ih]
      simp [h]

/-- Joining the pieces of a split with the separator gives the string back. -/
theorem strings.Join_splitChars (sep : Char) (cur s : List Char) :
    strings.Join ((strings.splitChars sep cur s).map String.mk) (String.mk [sep]) =
      String.mk (cur.reverse ++ s) := by
  induction s generalizing cur with
  | nil => simp [strings.splitChars, strings.Join]
  | cons c rest ih =>
    unfold strings.splitChars
    by_cases h : c = sep
    · subst h
      rw [if_pos rfl]
      obtain ⟨p, ps, hp⟩ := List.exists_cons_of_ne_nil (strings.splitChars_ne_nil c [] rest)
      have ih2 := ih []
      rw [hp] at ih2 ⊢
      simp only [List.map_cons] at ih2 ⊢
      rw [strings.Join_cons_cons, ih2]
      apply String.ext
      simp
    · rw [if_neg h, ih]
      simp

/-! ## Lemmas on the mutation engine -/

theorem Split_ne_nil (s : String) (sep : Char) : strings.Split s sep ≠ [] := by
  simp [strings.Split, strings.splitChars_ne_nil]

theorem handleContainer_approved (cfg : Config) (c : Container) (t : String)
    (h : containsRegisty cfg.whitelistedRegistries c.Image = true) :
    handleContainer cfg c t = (c, false) := by
  simp [handleContainer, h]

theorem handleContainer_rejected (cfg : Config) (c : Container) (t : String)
    (h : containsRegisty cfg.whitelistedRegistries c.Image = false) :
    handleContainer cfg c t = ({ c with Image := ImageRewriter c.Image t }, true) := by
  obtain ⟨p, ps, hp⟩ := List.exists_cons_of_ne_nil (Split_ne_nil c.Image '/')
  simp [handleContainer, h, ImageRewriter, hp]

theorem handleContainers_eq (cfg : Config) (path : String) (cs : List Container)
    (patches : List patch) :
    handleContainers cfg path cs patches = patches ++ cs.filterMap (expectedPatch cfg path) := by
  induction cs generalizing patches with
  | nil => simp [handleContainers]
  | cons c rest ih =>
    rw [handleContainers]
    cases h : containsRegisty cfg.whitelistedRegistries c.Image
    · rw [handleContainer_rejected cfg c _ h]
      simp [ih, expectedPatch, h]
    · rw [handleContainer_approved cfg c _ h]
      simp [ih, expectedPatch, h]

theorem recordPatches_exempt (cfg : Config) (json : JSON) (request : AdmissionRequest)
    (hns : contains cfg.whitelistedNamespaces request.Namespace = true) :
    recordPatches cfg json request = .ok [] := by
  simp [recordPatches, hns]

theorem recordPatches_eq (cfg : Config) (json : JSON) (request : AdmissionRequest) (pod : Pod)
    (hns : contains cfg.whitelistedNamespaces request.Namespace = false)
    (hpod : json.unmarshalPod request.Object.Raw = some pod) :
    recordPatches cfg json request =
      .ok (pod.Spec.Containers.filterMap (expectedPatch cfg "/spec/containers") ++
           pod.Spec.InitContainers.filterMap (expectedPatch cfg "/spec/initContainers")) := by
  simp [recordPatches, hns, hpod, handleContainers_eq]

theorem expectedPatch_path (cfg : Config) (path : String) (cs : List Container) :
    ∀ p ∈ cs.filterMap (expectedPatch cfg path), p.Path = path := by
  intro p hp
  rw [List.mem_filterMap] at hp
  obtain ⟨c, _, hc⟩ := hp
  unfold expectedPatch at hc
  split at hc
  · cases hc
  · cases hc
    rfl

theorem recordPatches_paths (cfg : Config) (json : JSON) (request : AdmissionRequest)
    (patches : List patch) (h : recordPatches cfg json request = .ok patches) :
    ∀ p ∈ patches, p.Path = "/spec/containers" ∨ p.Path = "/spec/initContainers" := by
  cases hns : contains cfg.whitelistedNamespaces request.Namespace
  · cases hpod : json.unmarshalPod request.Object.Raw with
    | none => simp [recordPatches, hns, hpod] at h
    | some pod =>
      rw [recordPatches_eq cfg json request pod hns hpod] at h
      cases h
      intro p hp
      rw [List.mem_append] at hp
      rcases hp with hp | hp
      · exact Or.inl (expectedPatch_path _ _ _ p hp)
      · exact Or.inr (expectedPatch_path _ _ _ p hp)
  · rw [recordPatches_exempt cfg json request hns] at h
    cases h
    simp

theorem mutateAdmissionResponse_of_nil (cfg : Config) (json : JSON) (request : AdmissionRequest)
    (h : recordPatches cfg json request = .ok []) :
    mutateAdmissionResponse cfg json request =
      .ok { Allowed := true, Result := none, Patch := none, PatchType := none } := by
  simp [mutateAdmissionResponse, h]

theorem filterMap_expectedPatch_approved (cfg : Config) (path : String) (cs : List Container)
    (h : ∀ c ∈ cs, containsRegisty cfg.whitelistedRegistries c.Image = true) :
    cs.filterMap (expectedPatch cfg path) = [] := by
  rw [List.filterMap_eq_nil_iff]
  intro c hc
  simp [expectedPatch, h c hc]

theorem countP_expectedPatch_same (cfg : Config) (path : String) (cs : List Container) :
    (cs.filterMap (expectedPatch cfg path)).countP (fun p => p.Path == path) =
      cs.countP (fun c => !containsRegisty cfg.whitelistedRegistries c.Image) := by
  induction cs with
  | nil => rfl
  | cons c rest ih =>
    cases h : containsRegisty cfg.whitelistedRegistries c.Image
    · rw [List.filterMap_cons, List.countP_cons]
      simp only [expectedPatch, h, Bool.false_eq_true, if_false, List.countP_cons, ih]
      simp
    · rw [List.filterMap_cons, List.countP_cons]
      simp only [expectedPatch, h, if_true, ih]
      simp

theorem countP_expectedPatch_other (cfg : Config) (path other : String) (cs : List Container)
    (hne : path ≠ other) :
    (cs.filterMap (expectedPatch cfg path)).countP (fun p => p.Path == other) = 0 := by
  rw [List.countP_eq_zero]
  intro p hp
  rw [expectedPatch_path cfg path cs p hp]
  simpa using hne

theorem length_expectedPatch (cfg : Config) (path : String) (cs : List Container) :
    (cs.filterMap (expectedPatch cfg path)).length =
      cs.countP (fun c => !containsRegisty cfg.whitelistedRegistries c.Image) := by
  rw [← countP_expectedPatch_same cfg path cs, eq_comm, List.countP_eq_length]
  intro p hp
  simp [expectedPatch_path cfg path cs p hp]

theorem dropWhile_head_false {α : Type} (p : α → Bool) (l : List α) (d : α) (rest : List α)
    (h : l.dropWhile p = d :: rest) : p d = false := by
  induction l with
  | nil => simp at h
  | cons a l ih =>
    rw [List.dropWhile_cons] at h
    cases ha : p a
    · simp only [ha, Bool.false_eq_true, if_false, List.cons.injEq] at h
      rw [← h.1]
      exact ha
    · simp only [ha, if_true] at h
      exact ih h

/-- With at least one "/" in the reference, replacing the first segment and
rejoining keeps everything from the first "/" on. -/
theorem Join_tail_Split (r t : String) (h : 2 ≤ (strings.Split r '/').length) :
    strings.Join (t :: (strings.Split r '/').tail) "/" =
      t ++ String.mk (r.data.dropWhile (fun ch => ch != '/')) := by
  unfold strings.Split at h ⊢
  rw [strings.splitChars_eq] at h ⊢
  cases hd : r.data.dropWhile (fun ch => ch != '/') with
  | nil => simp [hd] at h
  | cons d rest =>
    have hsep : d = '/' := by
      simpa using dropWhile_head_false _ _ _ _ hd
    subst hsep
    simp only [List.map_cons, List.tail_cons]
    obtain ⟨q, qs, hq⟩ := List.exists_cons_of_ne_nil (strings.splitChars_ne_nil '/' [] rest)
    have hj := strings.Join_splitChars '/' [] rest
    rw [hq] at hj ⊢
    simp only [List.map_cons, List.reverse_nil, List.nil_append] at hj ⊢
    rw [strings.Join_cons_cons, show ("/" : String) = String.mk ['/'] from rfl, hj]
    apply String.ext
    simp

/-! ## Lemmas on the validation engine -/

theorem inspectContainers_approved (cfg : Config) (cs : List Container)
    (resp : AdmissionResponse)
    (h : ∀ x ∈ cs, containsRegisty cfg.whitelistedRegistries x.Image = true) :
    inspectContainers cfg cs resp =
      ({ resp with Allowed := resp.Allowed || !cs.isEmpty }, false) := by
  induction cs generalizing resp with
  | nil => simp [inspectContainers]
  | cons c rest ih =>
    rw [inspectContainers]
    have hc := h c (List.mem_cons_self _ _)
    simp only [hc, Bool.not_true, Bool.false_eq_true, if_false]
    rw [ih _ (fun x hx => h x (List.mem_cons_of_mem _ hx))]
    simp

theorem inspectContainers_rejected (cfg : Config) (pre : List Container) (c : Container)
    (post : List Container) (resp : AdmissionResponse)
    (hpre : ∀ x ∈ pre, containsRegisty cfg.whitelistedRegistries x.Image = true)
    (hc : containsRegisty cfg.whitelistedRegistries c.Image = false) :
    inspectContainers cfg (pre ++ c :: post) resp =
      ({ resp with
           Allowed := resp.Allowed || !pre.isEmpty
           Result := some (getInvalidContainerResponse (rejectionMessage c.Image)) }, true) := by
  induction pre generalizing resp with
  | nil => simp [inspectContainers, hc, rejectionMessage]
  | cons x rest ih =>
    rw [List.cons_append, inspectContainers]
    have hx := hpre x (List.mem_cons_self _ _)
    simp only [hx, Bool.not_true, Bool.false_eq_true, if_false]
    rw [ih _ (fun y hy => hpre y (List.mem_cons_of_mem _ hy))]
    simp

theorem inspectContainers_append (cfg : Config) (xs ys : List Container)
    (resp : AdmissionResponse) :
    inspectContainers cfg (xs ++ ys) resp =
      if (inspectContainers cfg xs resp).2 then inspectContainers cfg xs resp
      else inspectContainers cfg ys (inspectContainers cfg xs resp).1 := by
  induction xs generalizing resp with
  | nil => simp [inspectContainers]
  | cons c rest ih =>
    rw [List.cons_append, inspectContainers, inspectContainers]
    cases h : containsRegisty cfg.whitelistedRegistries c.Image
    · simp
    · simp [ih]

/-- The two loops of the validate handler, with their common exit, inspect the
containers followed by the init containers as one sequence. -/
theorem validateAdmissionResponse_eq (cfg : Config) (json : JSON) (request : AdmissionRequest)
    (pod : Pod)
    (hns : contains cfg.whitelistedNamespaces request.Namespace = false)
    (hpod : json.unmarshalPod request.Object.Raw = some pod) :
    validateAdmissionResponse cfg json request =
      .ok (inspectContainers cfg (pod.Spec.Containers ++ pod.Spec.InitContainers)
            { Allowed := false, Result := none, Patch := none, PatchType := none }).1 := by
  simp only [validateAdmissionResponse, hns, hpod, inspectContainers_append]
  generalize inspectContainers cfg pod.Spec.Containers _ = q
  obtain ⟨r, b⟩ := q
  cases b <;> simp

theorem exists_first_rejected {α : Type} (p : α → Bool) (l : List α)
    (h : ∃ x ∈ l, p x = false) :
    ∃ pre c post, l = pre ++ c :: post ∧ (∀ x ∈ pre, p x = true) ∧ p c = false := by
  induction l with
  | nil => simp at h
  | cons a rest ih =>
    cases ha : p a
    · exact ⟨[], a, rest, rfl, by simp, ha⟩
    · have h2 : ∃ x ∈ rest, p x = false := by
        obtain ⟨x, hx, hpx⟩ := h
        rcases List.mem_cons.mp hx with rfl | hx
        · rw [ha] at hpx
          cases hpx
        · exact ⟨x, hx, hpx⟩
      obtain ⟨pre, c, post, hl, hpre, hc⟩ := ih h2
      refine ⟨a :: pre, c, post, by rw [hl]; rfl, ?_, hc⟩
      intro x hx
      rcases List.mem_cons.mp hx with rfl | hx
      · exact ha
      · exact hpre x hx

/-- For a rejected image at any position of the inspected sequence, `Allowed` keeps
the value it had when the rejection was met: false when the rejected container is
the first of the sequence, true when an approved container precedes it. -/
theorem validateAdmissionResponse_rejected (cfg : Config) (json : JSON)
    (request : AdmissionRequest) (pod : Pod) (pre : List Container) (c : Container)
    (post : List Container)
    (hns : contains cfg.whitelistedNamespaces request.Namespace = false)
    (hpod : json.unmarshalPod request.Object.Raw = some pod)
    (hl : pod.Spec.Containers ++ pod.Spec.InitContainers = pre ++ c :: post)
    (hpre : ∀ x ∈ pre, containsRegisty cfg.whitelistedRegistries x.Image = true)
    (hc : containsRegisty cfg.whitelistedRegistries c.Image = false) :
    validateAdmissionResponse cfg json request =
      .ok { Allowed := !pre.isEmpty
            Result := some (getInvalidContainerResponse (rejectionMessage c.Image))
            Patch := none, PatchType := none } := by
  rw [validateAdmissionResponse_eq cfg json request pod hns hpod, hl,
    inspectContainers_rejected cfg pre c post _ hpre hc]
  simp

/-! ## Lemmas on the handlers -/

theorem readRequest_error (json : JSON) (body : Option Bytes) (e : Served)
    (h : readRequest json body = .error e) :
    e = .status StatusBadRequest none ∨ e = .panic := by
  unfold readRequest at h
  cases body with
  | none =>
    simp only [Except.error.injEq] at h
    exact Or.inl h.symm
  | some data =>
    simp only at h
    cases hd : json.unmarshalAdmissionReview data with
    | none =>
      simp only [hd, Except.error.injEq] at h
      exact Or.inl h.symm
    | some ar =>
      simp only [hd] at h
      cases hr : ar.Request with
      | none =>
        simp only [hr, Except.error.injEq] at h
        exact Or.inr h.symm
      | some request => simp [hr] at h

theorem recordPatches_error (cfg : Config) (json : JSON) (request : AdmissionRequest)
    (e : Served) (h : recordPatches cfg json request = .error e) :
    e = .status StatusBadRequest none := by
  cases hns : contains cfg.whitelistedNamespaces request.Namespace
  · cases hpod : json.unmarshalPod request.Object.Raw with
    | none =>
      simp only [recordPatches, hns, hpod, Bool.not_false, if_true, Except.error.injEq] at h
      exact h.symm
    | some pod => simp [recordPatches_eq cfg json request pod hns hpod] at h
  · simp [recordPatches_exempt cfg json request hns] at h

theorem mutateAdmissionResponse_error (cfg : Config) (json : JSON)
    (request : AdmissionRequest) (e : Served)
    (h : mutateAdmissionResponse cfg json request = .error e) :
    e = .status StatusBadRequest none := by
  unfold mutateAdmissionResponse at h
  cases hrec : recordPatches cfg json request with
  | error e2 =>
    simp only [hrec, Except.error.injEq] at h
    rw [← h]
    exact recordPatches_error cfg json request e2 hrec
  | ok patches =>
    simp only [hrec] at h
    by_cases hlen : patches.length > 0
    · simp only [hlen, if_true] at h
      cases hm : json.marshalPatches (patches ++ [pullSecretPatch cfg]) with
      | none =>
        simp only [hm, Except.error.injEq] at h
        exact h.symm
      | some patchContent => simp [hm] at h
    · simp [hlen] at h

theorem mutateAdmissionResponse_allowed (cfg : Config) (json : JSON)
    (request : AdmissionRequest) (resp : AdmissionResponse)
    (h : mutateAdmissionResponse cfg json request = .ok resp) : resp.Allowed = true := by
  unfold mutateAdmissionResponse at h
  cases hrec : recordPatches cfg json request with
  | error e2 => simp [hrec] at h
  | ok patches =>
    simp only [hrec] at h
    by_cases hlen : patches.length > 0
    · simp only [hlen, if_true] at h
      cases hm : json.marshalPatches (patches ++ [pullSecretPatch cfg]) with
      | none => simp [hm] at h
      | some patchContent =>
        simp only [hm, Except.ok.injEq] at h
        rw [← h]
    · simp only [hlen, if_false, Except.ok.injEq] at h
      rw [← h]

theorem validateAdmissionResponse_error (cfg : Config) (json : JSON)
    (request : AdmissionRequest) (e : Served)
    (h : validateAdmissionResponse cfg json request = .error e) :
    e = .status StatusBadRequest none := by
  cases hns : contains cfg.whitelistedNamespaces request.Namespace
  · cases hpod : json.unmarshalPod request.Object.Raw with
    | none =>
      simp only [validateAdmissionResponse, hns, hpod, Bool.not_false, if_true,
        Except.error.injEq] at h
      exact h.symm
    | some pod => simp [validateAdmissionResponse_eq cfg json request pod hns hpod] at h
  · simp [validateAdmissionResponse, hns] at h

theorem writeResponse_ok (json : JSON) (resp : AdmissionResponse) (data : Bytes)
    (h : writeResponse json resp = .status StatusOK (some data)) :
    json.marshalAdmissionReview { Request := none, Response := some resp } = some data := by
  unfold writeResponse at h
  cases hm : json.marshalAdmissionReview { Request := none, Response := some resp } with
  | none => simp [hm, StatusOK, StatusInternalServerError] at h
  | some d =>
    simp only [hm, Served.status.injEq, Option.some.injEq, true_and] at h
    rw [h]

theorem readRequest_ok (json : JSON) (data : Bytes) (ar : AdmissionReview)
    (request : AdmissionRequest) (hd : json.unmarshalAdmissionReview data = some ar)
    (hr : ar.Request = some request) : readRequest json (some data) = .ok request := by
  simp [readRequest, hd, hr]

theorem readRequest_undecoded (json : JSON) (data : Bytes)
    (hd : json.unmarshalAdmissionReview data = none) :
    readRequest json (some data) = .error (.status StatusBadRequest none) := by
  simp [readRequest, hd]

theorem recordPatches_undecoded (cfg : Config) (json : JSON) (request : AdmissionRequest)
    (hns : contains cfg.whitelistedNamespaces request.Namespace = false)
    (hpod : json.unmarshalPod request.Object.Raw = none) :
    recordPatches cfg json request = .error (.status StatusBadRequest none) := by
  simp [recordPatches, hns, hpod]

theorem validateAdmissionResponse_undecoded (cfg : Config) (json : JSON)
    (request : AdmissionRequest)
    (hns : contains cfg.whitelistedNamespaces request.Namespace = false)
    (hpod : json.unmarshalPod request.Object.Raw = none) :
    validateAdmissionResponse cfg json request = .error (.status StatusBadRequest none) := by
  simp [validateAdmissionResponse, hns, hpod]

/-- Outside the case of a non-exempt namespace with an undecodable pod, the
validate engine reaches a response. -/
theorem validateAdmissionResponse_reached (cfg : Config) (json : JSON)
    (request : AdmissionRequest)
    (h : contains cfg.whitelistedNamespaces request.Namespace = true ∨
      ∃ pod, json.unmarshalPod request.Object.Raw = some pod) :
    ∃ resp, validateAdmissionResponse cfg json request = .ok resp := by
  cases hns : contains cfg.whitelistedNamespaces request.Namespace
  · rcases h with h | ⟨pod, hpod⟩
    · rw [hns] at h
      cases h
    · exact ⟨_, validateAdmissionResponse_eq cfg json request pod hns hpod⟩
  · exact ⟨{ Allowed := true, Result := none, Patch := none, PatchType := none },
      by simp [validateAdmissionResponse, hns]⟩

/-- Outside the case of a non-exempt namespace with an undecodable pod, the
mutate engine reaches the end of the loops with a list of patches. -/
theorem recordPatches_reached (cfg : Config) (json : JSON) (request : AdmissionRequest)
    (h : contains cfg.whitelistedNamespaces request.Namespace = true ∨
      ∃ pod, json.unmarshalPod request.Object.Raw = some pod) :
    ∃ patches, recordPatches cfg json request = .ok patches := by
  cases hns : contains cfg.whitelistedNamespaces request.Namespace
  · rcases h with h | ⟨pod, hpod⟩
    · rw [hns] at h
      cases h
    · exact ⟨_, recordPatches_eq cfg json request pod hns hpod⟩
  · exact ⟨_, recordPatches_exempt cfg json request hns⟩

theorem mutateAdmissionResponse_unserialised (cfg : Config) (json : JSON)
    (request : AdmissionRequest) (patches : List patch)
    (h : recordPatches cfg json request = .ok patches) (hne : patches ≠ [])
    (hm : json.marshalPatches (patches ++ [pullSecretPatch cfg]) = none) :
    mutateAdmissionResponse cfg json request = .error (.status StatusBadRequest none) := by
  have hlen : patches.length > 0 := List.length_pos.mpr hne
  simp [mutateAdmissionResponse, h, hlen, hm]

theorem mutateAdmissionResponse_serialised (cfg : Config) (json : JSON)
    (request : AdmissionRequest) (patches : List patch) (patchContent : Bytes)
    (h : recordPatches cfg json request = .ok patches) (hne : patches ≠ [])
    (hm : json.marshalPatches (patches ++ [pullSecretPatch cfg]) = some patchContent) :
    mutateAdmissionResponse cfg json request =
      .ok { Allowed := true, Result := none, Patch := some patchContent,
            PatchType := some PatchTypeJSONPatch } := by
  have hlen : patches.length > 0 := List.length_pos.mpr hne
  simp [mutateAdmissionResponse, h, hlen, hm]

/-! ## Lemmas on rewritten references and on empty whitelist entries -/

theorem strings.containsChars_nil (s : List Char) : strings.containsChars s [] = true := by
  unfold strings.containsChars
  simp [List.isPrefixOf]

theorem dropWhile_of_two_segments (r : String) (h : 2 ≤ (strings.Split r '/').length) :
    ∃ rest, r.data.dropWhile (fun ch => ch != '/') = '/' :: rest := by
  unfold strings.Split at h
  rw [strings.splitChars_eq] at h
  cases hd : r.data.dropWhile (fun ch => ch != '/') with
  | nil => simp [hd] at h
  | cons d rest =>
    have hsep : d = '/' := by
      simpa using dropWhile_head_false _ _ _ _ hd
    exact ⟨rest, by rw [hsep]⟩

/-- Every rewritten reference begins with the target registry and "/". -/
theorem ImageRewriter_begins (r t : String) :
    ∃ rest, ImageRewriter r t = t ++ "/" ++ rest := by
  by_cases h : (strings.Split r '/').length < 3
  · exact ⟨r, by simp [ImageRewriter, h]⟩
  · have h2 : 2 ≤ (strings.Split r '/').length := by omega
    obtain ⟨rest, hrest⟩ := dropWhile_of_two_segments r h2
    refine ⟨String.mk rest, ?_⟩
    have hj : ImageRewriter r t = strings.Join (t :: (strings.Split r '/').tail) "/" := by
      simp [ImageRewriter, h]
    rw [hj, Join_tail_Split r t h2, hrest]
    apply String.ext
    simp

theorem containsRegisty_of_begins (W : List String) (t rest : String) (ht : t ∈ W) :
    containsRegisty W (t ++ "/" ++ rest) = true := by
  rw [containsRegisty_iff]
  refine ⟨t, ht, Or.inr ?_⟩
  rw [String.data_append, String.data_append, List.append_assoc]
  exact (List.prefix_append _ _).isInfix

theorem handleContainer_image_approved (cfg : Config) (c : Container) (t : String)
    (ht : t ∈ cfg.whitelistedRegistries) :
    containsRegisty cfg.whitelistedRegistries (handleContainer cfg c t).1.Image = true := by
  cases h : containsRegisty cfg.whitelistedRegistries c.Image
  · rw [handleContainer_rejected cfg c t h]
    obtain ⟨rest, hrest⟩ := ImageRewriter_begins c.Image t
    show containsRegisty cfg.whitelistedRegistries (ImageRewriter c.Image t) = true
    rw [hrest]
    exact containsRegisty_of_begins _ t rest ht
  · rw [handleContainer_approved cfg c t h]
    exact h

theorem containsRegisty_of_empty_entry (W : List String) (r : String) (h : "" ∈ W) :
    containsRegisty W r = true := by
  rw [containsRegisty_iff]
  exact ⟨"", h, Or.inr List.nil_infix⟩

/-- The pieces that follow a separator are the last pieces of the whole split. -/
theorem strings.splitChars_after (sep : Char) (cur a b : List Char) :
    ∃ pre, strings.splitChars sep cur (a ++ sep :: b) = pre ++ strings.splitChars sep [] b := by
  induction a generalizing cur with
  | nil => exact ⟨[cur.reverse], by simp [strings.splitChars]⟩
  | cons c rest ih =>
    rw [List.cons_append, strings.splitChars]
    by_cases hc : c = sep
    · obtain ⟨pre, hpre⟩ := ih []
      exact ⟨cur.reverse :: pre, by rw [if_pos hc, hpre]; rfl⟩
    · obtain ⟨pre, hpre⟩ := ih (c :: cur)
      exact ⟨pre, by rw [if_neg hc, hpre]⟩

theorem Split_mem_of_chars (s : String) (sep : Char)
    (h : [] ∈ strings.splitChars sep [] s.data) : "" ∈ strings.Split s sep := by
  unfold strings.Split
  rw [List.mem_map]
  exact ⟨[], h, rfl⟩

theorem contains_empty (W : List String) (h : W ≠ []) : contains W "" = true := by
  cases W with
  | nil => exact absurd rfl h
  | cons a rest =>
    unfold contains
    have hc : strings.Contains a "" = true := strings.containsChars_nil a.data
    simp [hc]

theorem contains_exempt_response (cfg : Config) (json : JSON) (request : AdmissionRequest)
    (hns : contains cfg.whitelistedNamespaces request.Namespace = true) :
    mutateAdmissionResponse cfg json request =
      .ok { Allowed := true, Result := none, Patch := none, PatchType := none } ∧
    validateAdmissionResponse cfg json request =
      .ok { Allowed := true, Result := none, Patch := none, PatchType := none } := by
  constructor
  · exact mutateAdmissionResponse_of_nil cfg json _ (recordPatches_exempt cfg json _ hns)
  · simp [validateAdmissionResponse, hns]

/-- A pod all of whose images are approved: no recorded patch, allowed without
patch by the mutate engine. -/
theorem mutate_of_all_approved (cfg : Config) (json : JSON) (request : AdmissionRequest)
    (pod : Pod) (hpod : json.unmarshalPod request.Object.Raw = some pod)
    (hall : ∀ c ∈ pod.Spec.Containers ++ pod.Spec.InitContainers,
      containsRegisty cfg.whitelistedRegistries c.Image = true) :
    recordPatches cfg json request = .ok [] ∧
    mutateAdmissionResponse cfg json request =
      .ok { Allowed := true, Result := none, Patch := none, PatchType := none } := by
  have hrec : recordPatches cfg json request = .ok [] := by
    cases hns : contains cfg.whitelistedNamespaces request.Namespace
    · rw [recordPatches_eq cfg json request pod hns hpod,
        filterMap_expectedPatch_approved cfg _ _
          (fun c hc => hall c (List.mem_append_left _ hc)),
        filterMap_expectedPatch_approved cfg _ _
          (fun c hc => hall c (List.mem_append_right _ hc))]
      rfl
    · exact recordPatches_exempt cfg json request hns
  exact ⟨hrec, mutateAdmissionResponse_of_nil cfg json request hrec⟩

/-- A non-empty pod all of whose images are approved is allowed by the validate
engine in a non-exempt namespace. -/
theorem validate_of_all_approved (cfg : Config) (json : JSON) (request : AdmissionRequest)
    (pod : Pod)
    (hns : contains cfg.whitelistedNamespaces request.Namespace = false)
    (hpod : json.unmarshalPod request.Object.Raw = some pod)
    (hne : pod.Spec.Containers ++ pod.Spec.InitContainers ≠ [])
    (hall : ∀ c ∈ pod.Spec.Containers ++ pod.Spec.InitContainers,
      containsRegisty cfg.whitelistedRegistries c.Image = true) :
    validateAdmissionResponse cfg json request =
      .ok { Allowed := true, Result := none, Patch := none, PatchType := none } := by
  rw [validateAdmissionResponse_eq cfg json request pod hns hpod,
    inspectContainers_approved cfg _ _ hall]
  have hemp : (pod.Spec.Containers ++ pod.Spec.InitContainers).isEmpty = false := by
    cases hl : pod.Spec.Containers ++ pod.Spec.InitContainers with
    | nil => exact absurd hl hne
    | cons a l => rfl
  simp [hemp]

/-! ## Claims -/

/-- C1 (the code departs from the claim): in the non-exempt namespace "default",
with registry whitelist "myregistry.io", a pod whose first container is approved
and whose second container is not approved gets a validate decision with
allowed=true (and the rejection cause attached): the later failure does not put
allowed back to false. -/
theorem C1_later_rejection_keeps_allowed :
    contains sampleConfig.whitelistedNamespaces "default" = false ∧
    containsRegisty sampleConfig.whitelistedRegistries "myregistry.io/app:1.0" = true ∧
    containsRegisty sampleConfig.whitelistedRegistries "docker.io/library/nginx" = false ∧
    validateAdmissionResponse sampleConfig (sampleJSON podMixed) (sampleRequest "default") =
      .ok { Allowed := true
            Result := some (getInvalidContainerResponse
              "Image is not being pulled from Private Registry: docker.io/library/nginx")
            Patch := none, PatchType := none } :=
  ⟨by decide, by decide, by decide, rfl⟩

/-- C2: in a non-exempt namespace, for a pod with at least one non-approved image,
the validate response carries a result with exactly one cause, whose message is
"Image is not being pulled from Private Registry: " followed by the image of the
first non-approved container of the sequence containers ++ initContainers. -/
theorem C2_validate_cause_is_first_rejected_image (cfg : Config) (json : JSON)
    (request : AdmissionRequest) (pod : Pod)
    (hns : contains cfg.whitelistedNamespaces request.Namespace = false)
    (hpod : json.unmarshalPod request.Object.Raw = some pod)
    (hbad : ∃ x ∈ pod.Spec.Containers ++ pod.Spec.InitContainers,
      containsRegisty cfg.whitelistedRegistries x.Image = false) :
    ∃ pre c post resp,
      pod.Spec.Containers ++ pod.Spec.InitContainers = pre ++ c :: post ∧
      (∀ x ∈ pre, containsRegisty cfg.whitelistedRegistries x.Image = true) ∧
      containsRegisty cfg.whitelistedRegistries c.Image = false ∧
      validateAdmissionResponse cfg json request = .ok resp ∧
      resp.Result = some
        { Reason := StatusReasonInvalid
          Details := some { Causes := [{ Message :=
            "Image is not being pulled from Private Registry: " ++ c.Image }] } } := by
  obtain ⟨pre, c, post, hl, hpre, hc⟩ :=
    exists_first_rejected (fun x => containsRegisty cfg.whitelistedRegistries x.Image) _ hbad
  exact ⟨pre, c, post, _, hl, hpre, hc,
    validateAdmissionResponse_rejected cfg json request pod pre c post hns hpod hl hpre hc, rfl⟩

/-- Scenario C: whitelist "myregistry.io", image "docker.io/library/nginx". -/
theorem C2_validate_cause_witness :
    (validateAdmissionResponse sampleConfig (sampleJSON podC) (sampleRequest "default") =
      .ok { Allowed := false
            Result := some
              { Reason := "Invalid"
                Details := some { Causes := [{ Message :=
                  "Image is not being pulled from Private Registry: docker.io/library/nginx" }] } }
            Patch := none, PatchType := none }) ∧
    ∃ pre c post resp,
      podC.Spec.Containers ++ podC.Spec.InitContainers = pre ++ c :: post ∧
      (∀ x ∈ pre, containsRegisty sampleConfig.whitelistedRegistries x.Image = true) ∧
      containsRegisty sampleConfig.whitelistedRegistries c.Image = false ∧
      validateAdmissionResponse sampleConfig (sampleJSON podC) (sampleRequest "default") =
        .ok resp ∧
      resp.Result = some
        { Reason := StatusReasonInvalid
          Details := some { Causes := [{ Message :=
            "Image is not being pulled from Private Registry: " ++ c.Image }] } } :=
  ⟨rfl, C2_validate_cause_is_first_rejected_image sampleConfig (sampleJSON podC)
    (sampleRequest "default") podC (by decide) rfl
    ⟨imageContainer "docker.io/library/nginx", by decide, by decide⟩⟩

/-- C3: whenever the mutate handler produces a response for a decoded request, the
response has allowed=true; and every body the handler writes with status 200 is
the serialisation of an envelope whose response has allowed=true. -/
theorem C3_mutate_never_denies (cfg : Config) (json : JSON) :
    (∀ request resp, mutateAdmissionResponse cfg json request = .ok resp →
      resp.Allowed = true) ∧
    (∀ body data, mutateAdmissionReviewHandler cfg json body = .status StatusOK (some data) →
      ∃ request resp, readRequest json body = .ok request ∧
        mutateAdmissionResponse cfg json request = .ok resp ∧
        resp.Allowed = true ∧
        json.marshalAdmissionReview { Request := none, Response := some resp } = some data) := by
  refine ⟨mutateAdmissionResponse_allowed cfg json, ?_⟩
  intro body data h
  unfold mutateAdmissionReviewHandler at h
  cases hreq : readRequest json body with
  | error e =>
    rw [hreq] at h
    rcases readRequest_error json body e hreq with he | he <;>
      simp [he, StatusOK, StatusBadRequest] at h
  | ok request =>
    simp only [hreq] at h
    cases hresp : mutateAdmissionResponse cfg json request with
    | error e =>
      simp only [hresp] at h
      simp [mutateAdmissionResponse_error cfg json request e hresp, StatusOK,
        StatusBadRequest] at h
    | ok resp =>
      simp only [hresp] at h
      exact ⟨request, resp, rfl, hresp, mutateAdmissionResponse_allowed cfg json request resp hresp,
        writeResponse_ok json resp data h⟩

/-- Scenario A run through the mutate engine: the response carries a patch and
is allowed. -/
theorem C3_mutate_never_denies_witness :
    mutateAdmissionResponse sampleConfig (sampleJSON podA) (sampleRequest "default") =
      .ok { Allowed := true, Result := none, Patch := some [],
            PatchType := some PatchTypeJSONPatch } ∧
    ({ Allowed := true, Result := none, Patch := some [],
       PatchType := some PatchTypeJSONPatch } : AdmissionResponse).Allowed = true :=
  ⟨rfl, (C3_mutate_never_denies sampleConfig (sampleJSON podA)).1
    (sampleRequest "default") _ rfl⟩

/-- C4: when some pattern of the namespace whitelist equals the namespace or has
it as a substring, then for every raw object and every decoder (also one that
fails on the object) the mutate decision is allowed=true with no patch and no
patch type, and the validate decision is allowed=true with no cause. -/
theorem C4_exempt_namespace_bypasses_inspection (cfg : Config) (json : JSON)
    (ns : String) (raw : Bytes)
    (h : ∃ p ∈ cfg.whitelistedNamespaces, p = ns ∨ ns.data <:+: p.data) :
    mutateAdmissionResponse cfg json { Namespace := ns, Object := { Raw := raw } } =
      .ok { Allowed := true, Result := none, Patch := none, PatchType := none } ∧
    validateAdmissionResponse cfg json { Namespace := ns, Object := { Raw := raw } } =
      .ok { Allowed := true, Result := none, Patch := none, PatchType := none } := by
  have hns : contains cfg.whitelistedNamespaces ns = true := (contains_iff _ _).mpr h
  constructor
  · exact mutateAdmissionResponse_of_nil cfg json _ (recordPatches_exempt cfg json _ hns)
  · simp [validateAdmissionResponse, hns]

/-- Scenario D: namespace whitelist "kube-system", namespace "kube-system", with a
decoder that fails on every object. -/
theorem C4_exempt_namespace_witness :
    (∃ p ∈ sampleConfig.whitelistedNamespaces,
      p = "kube-system" ∨ "kube-system".data <:+: p.data) ∧
    mutateAdmissionResponse sampleConfig { sampleJSON podC with unmarshalPod := fun _ => none }
        { Namespace := "kube-system", Object := { Raw := [1, 2, 3] } } =
      .ok { Allowed := true, Result := none, Patch := none, PatchType := none } ∧
    validateAdmissionResponse sampleConfig { sampleJSON podC with unmarshalPod := fun _ => none }
        { Namespace := "kube-system", Object := { Raw := [1, 2, 3] } } =
      .ok { Allowed := true, Result := none, Patch := none, PatchType := none } :=
  ⟨⟨"kube-system", by decide, Or.inl rfl⟩,
   C4_exempt_namespace_bypasses_inspection sampleConfig _ "kube-system" [1, 2, 3]
    ⟨"kube-system", by decide, Or.inl rfl⟩⟩

/-- C5: in a non-exempt namespace, the recorded container operations are, in
order: for each container with a non-approved image one "add" at
"/spec/containers" whose value is the one-element list of that container with its
image rewritten (all other fields as they were), then the same at
"/spec/initContainers" for each init container with a non-approved image. Approved
containers contribute nothing. -/
theorem C5_patch_content_and_order (cfg : Config) (json : JSON)
    (request : AdmissionRequest) (pod : Pod)
    (hns : contains cfg.whitelistedNamespaces request.Namespace = false)
    (hpod : json.unmarshalPod request.Object.Raw = some pod) :
    recordPatches cfg json request =
      .ok (pod.Spec.Containers.filterMap (fun c =>
              if containsRegisty cfg.whitelistedRegistries c.Image then none
              else some { Op := "add", Path := "/spec/containers",
                          Value := .containers
                            [{ c with Image := ImageRewriter c.Image cfg.dockerRegistryUrl }] }) ++
           pod.Spec.InitContainers.filterMap (fun c =>
              if containsRegisty cfg.whitelistedRegistries c.Image then none
              else some { Op := "add", Path := "/spec/initContainers",
                          Value := .containers
                            [{ c with Image := ImageRewriter c.Image cfg.dockerRegistryUrl }] })) :=
  recordPatches_eq cfg json request pod hns hpod

/-- Scenario A: image "nginx:latest", target "myregistry.io". -/
theorem C5_patch_content_witness :
    recordPatches sampleConfig (sampleJSON podA) (sampleRequest "default") =
      .ok [{ Op := "add", Path := "/spec/containers",
             Value := .containers [imageContainer "myregistry.io/nginx:latest"] }] :=
  (C5_patch_content_and_order sampleConfig (sampleJSON podA) (sampleRequest "default") podA
    (by decide) rfl).trans rfl

/-- C6: with `patches` the recorded container operations of a mutate request: if
there is none, the response has no patch and no patch type; otherwise the
document that is serialised into the response is `patches` followed by the
pull-secret operation, which is its last operation, is an "add" at
"/spec/imagePullSecrets" of the one-element list referencing the configured
secret, and is the only operation of the document at that path. -/
theorem C6_pull_secret_injection (cfg : Config) (json : JSON) (request : AdmissionRequest)
    (patches : List patch) (h : recordPatches cfg json request = .ok patches) :
    (patches = [] →
      mutateAdmissionResponse cfg json request =
        .ok { Allowed := true, Result := none, Patch := none, PatchType := none }) ∧
    (patches ≠ [] →
      mutateAdmissionResponse cfg json request =
        match json.marshalPatches (patches ++ [pullSecretPatch cfg]) with
        | none => .error (.status StatusBadRequest none)
        | some patchContent =>
          .ok { Allowed := true, Result := none, Patch := some patchContent,
                PatchType := some PatchTypeJSONPatch }) ∧
    (patches ++ [pullSecretPatch cfg]).getLast? =
      some { Op := "add", Path := "/spec/imagePullSecrets",
             Value := .localObjectReferences [{ Name := cfg.registrySecretName }] } ∧
    (patches ++ [pullSecretPatch cfg]).countP (fun p => p.Path == "/spec/imagePullSecrets") = 1 ∧
    (∀ p ∈ patches, p.Path ≠ "/spec/imagePullSecrets") := by
  have hpaths : ∀ p ∈ patches, p.Path ≠ "/spec/imagePullSecrets" := by
    intro p hp hpath
    rcases recordPatches_paths cfg json request patches h p hp with h1 | h1 <;>
      · rw [h1] at hpath
        revert hpath
        decide
  refine ⟨?_, ?_, ?_, ?_, hpaths⟩
  · intro hnil
    subst hnil
    exact mutateAdmissionResponse_of_nil cfg json request h
  · intro hne
    have hlen : patches.length > 0 := List.length_pos.mpr hne
    simp only [mutateAdmissionResponse, h, hlen, if_true]
  · simp [pullSecretPatch]
  · rw [List.countP_append]
    have h0 : patches.countP (fun p => p.Path == "/spec/imagePullSecrets") = 0 := by
      rw [List.countP_eq_zero]
      intro p hp
      simpa using hpaths p hp
    rw [h0]
    simp [pullSecretPatch]

/-- Scenario A: the document is the container operation followed by the operation
referencing "reg-secret". -/
theorem C6_pull_secret_witness :
    recordPatches sampleConfig (sampleJSON podA) (sampleRequest "default") =
      .ok [{ Op := "add", Path := "/spec/containers",
             Value := .containers [imageContainer "myregistry.io/nginx:latest"] }] ∧
    ([({ Op := "add", Path := "/spec/containers",
         Value := .containers [imageContainer "myregistry.io/nginx:latest"] } : patch)] ++
      [pullSecretPatch sampleConfig]).getLast? =
      some { Op := "add", Path := "/spec/imagePullSecrets",
             Value := .localObjectReferences [{ Name := "reg-secret" }] } :=
  ⟨rfl, (C6_pull_secret_injection sampleConfig (sampleJSON podA) (sampleRequest "default")
    _ rfl).2.2.1⟩

/-- C7 (as stated, fails): with two non-approved containers and two non-approved
init containers the mutate engine records two operations at "/spec/containers" and
two at "/spec/initContainers", and the document has five operations. -/
theorem C7_counterexample_two_operations_per_population :
    ∃ patches, recordPatches sampleConfig (sampleJSON podMany) (sampleRequest "default") =
        .ok patches ∧
      patches.countP (fun p => p.Path == "/spec/containers") = 2 ∧
      patches.countP (fun p => p.Path == "/spec/initContainers") = 2 ∧
      (patches ++ [pullSecretPatch sampleConfig]).length = 5 ∧
      mutateAdmissionResponse sampleConfig (sampleJSON podMany) (sampleRequest "default") =
        (match (sampleJSON podMany).marshalPatches (patches ++ [pullSecretPatch sampleConfig]) with
         | none => .error (.status StatusBadRequest none)
         | some patchContent =>
           .ok { Allowed := true, Result := none, Patch := some patchContent,
                 PatchType := some PatchTypeJSONPatch }) :=
  ⟨_, rfl, by decide, by decide, by decide, rfl⟩

/-- C7 (amended): in a non-exempt namespace the mutate engine records one operation
per container with a non-approved image: the number of operations at
"/spec/containers" is the number of containers with a non-approved image, the
number at "/spec/initContainers" is the number of init containers with a
non-approved image, there is no other recorded operation, and the document with
the pull-secret operation has one operation more. -/
theorem C7_one_operation_per_rejected_container (cfg : Config) (json : JSON)
    (request : AdmissionRequest) (pod : Pod)
    (hns : contains cfg.whitelistedNamespaces request.Namespace = false)
    (hpod : json.unmarshalPod request.Object.Raw = some pod) :
    ∃ patches, recordPatches cfg json request = .ok patches ∧
      patches.countP (fun p => p.Path == "/spec/containers") =
        pod.Spec.Containers.countP
          (fun c => !containsRegisty cfg.whitelistedRegistries c.Image) ∧
      patches.countP (fun p => p.Path == "/spec/initContainers") =
        pod.Spec.InitContainers.countP
          (fun c => !containsRegisty cfg.whitelistedRegistries c.Image) ∧
      (patches ++ [pullSecretPatch cfg]).length =
        pod.Spec.Containers.countP
            (fun c => !containsRegisty cfg.whitelistedRegistries c.Image) +
          pod.Spec.InitContainers.countP
            (fun c => !containsRegisty cfg.whitelistedRegistries c.Image) + 1 := by
  refine ⟨_, recordPatches_eq cfg json request pod hns hpod, ?_, ?_, ?_⟩
  · rw [List.countP_append, countP_expectedPatch_same,
      countP_expectedPatch_other cfg "/spec/initContainers" "/spec/containers" _ (by decide)]
    rfl
  · rw [List.countP_append, countP_expectedPatch_same,
      countP_expectedPatch_other cfg "/spec/containers" "/spec/initContainers" _ (by decide)]
    simp
  · simp only [List.length_append, length_expectedPatch, List.length_singleton]

/-- The pod with two containers and two init containers, none approved. -/
theorem C7_one_operation_per_rejected_container_witness :
    ∃ patches, recordPatches sampleConfig (sampleJSON podMany) (sampleRequest "default") =
        .ok patches ∧
      patches.countP (fun p => p.Path == "/spec/containers") =
        podMany.Spec.Containers.countP
          (fun c => !containsRegisty sampleConfig.whitelistedRegistries c.Image) ∧
      patches.countP (fun p => p.Path == "/spec/initContainers") =
        podMany.Spec.InitContainers.countP
          (fun c => !containsRegisty sampleConfig.whitelistedRegistries c.Image) ∧
      (patches ++ [pullSecretPatch sampleConfig]).length =
        podMany.Spec.Containers.countP
            (fun c => !containsRegisty sampleConfig.whitelistedRegistries c.Image) +
          podMany.Spec.InitContainers.countP
            (fun c => !containsRegisty sampleConfig.whitelistedRegistries c.Image) + 1 :=
  C7_one_operation_per_rejected_container sampleConfig (sampleJSON podMany)
    (sampleRequest "default") podMany (by decide) rfl

/-- C8: for an approved image `handleContainer` returns false and leaves the
container as it was; and for a pod all of whose container and init-container
images are approved the mutate engine records no operation and answers
allowed=true with no patch and no patch type. -/
theorem C8_approved_images_left_alone (cfg : Config) :
    (∀ (c : Container) (t : String),
      containsRegisty cfg.whitelistedRegistries c.Image = true →
      handleContainer cfg c t = (c, false)) ∧
    (∀ (json : JSON) (request : AdmissionRequest) (pod : Pod),
      json.unmarshalPod request.Object.Raw = some pod →
      (∀ c ∈ pod.Spec.Containers ++ pod.Spec.InitContainers,
        containsRegisty cfg.whitelistedRegistries c.Image = true) →
      recordPatches cfg json request = .ok [] ∧
      mutateAdmissionResponse cfg json request =
        .ok { Allowed := true, Result := none, Patch := none, PatchType := none }) := by
  refine ⟨fun c t h => handleContainer_approved cfg c t h, ?_⟩
  intro json request pod hpod hall
  have hrec : recordPatches cfg json request = .ok [] := by
    cases hns : contains cfg.whitelistedNamespaces request.Namespace
    · rw [recordPatches_eq cfg json request pod hns hpod,
        filterMap_expectedPatch_approved cfg _ _
          (fun c hc => hall c (List.mem_append_left _ hc)),
        filterMap_expectedPatch_approved cfg _ _
          (fun c hc => hall c (List.mem_append_right _ hc))]
      rfl
    · exact recordPatches_exempt cfg json request hns
  exact ⟨hrec, mutateAdmissionResponse_of_nil cfg json request hrec⟩

/-- Scenario B: whitelist "myregistry.io", image "myregistry.io/app:1.0". -/
theorem C8_approved_images_witness :
    containsRegisty sampleConfig.whitelistedRegistries "myregistry.io/app:1.0" = true ∧
    handleContainer sampleConfig (imageContainer "myregistry.io/app:1.0") "myregistry.io" =
      (imageContainer "myregistry.io/app:1.0", false) ∧
    recordPatches sampleConfig (sampleJSON podB) (sampleRequest "default") = .ok [] ∧
    mutateAdmissionResponse sampleConfig (sampleJSON podB) (sampleRequest "default") =
      .ok { Allowed := true, Result := none, Patch := none, PatchType := none } :=
  ⟨by decide,
   (C8_approved_images_left_alone sampleConfig).1 (imageContainer "myregistry.io/app:1.0")
     "myregistry.io" (by decide),
   (C8_approved_images_left_alone sampleConfig).2 (sampleJSON podB) (sampleRequest "default")
     podB rfl (by decide)⟩

/-- C9: for a non-approved image reference r and a target registry t,
`handleContainer` returns true and changes the image only; the new image is
t ++ "/" ++ r when r splits on "/" into fewer than three segments, and otherwise
the segments of r with the first replaced by t, rejoined with "/", which is t
followed by the part of r from its first "/" on. -/
theorem C9_image_rewriter (cfg : Config) (c : Container) (t : String)
    (h : containsRegisty cfg.whitelistedRegistries c.Image = false) :
    (handleContainer cfg c t).2 = true ∧
    (handleContainer cfg c t).1 =
      { c with Image := (handleContainer cfg c t).1.Image } ∧
    (handleContainer cfg c t).1.Image = ImageRewriter c.Image t ∧
    ((strings.Split c.Image '/').length < 3 →
      (handleContainer cfg c t).1.Image = t ++ "/" ++ c.Image) ∧
    (3 ≤ (strings.Split c.Image '/').length →
      (handleContainer cfg c t).1.Image =
        strings.Join (t :: (strings.Split c.Image '/').tail) "/" ∧
      (handleContainer cfg c t).1.Image =
        t ++ String.mk (c.Image.data.dropWhile (fun ch => ch != '/'))) := by
  rw [handleContainer_rejected cfg c t h]
  refine ⟨rfl, rfl, rfl, ?_, ?_⟩
  · intro hlt
    simp [ImageRewriter, hlt]
  · intro hge
    have hnlt : ¬ (strings.Split c.Image '/').length < 3 := Nat.not_lt.mpr hge
    have hj : ImageRewriter c.Image t =
        strings.Join (t :: (strings.Split c.Image '/').tail) "/" := by
      simp [ImageRewriter, hnlt]
    refine ⟨hj, ?_⟩
    show ImageRewriter c.Image t = _
    rw [hj]
    exact Join_tail_Split c.Image t (by omega)

/-- The three sample references: "nginx:latest" and "repo/name" get the target
prepended, "docker.io/library/nginx" gets its host replaced. -/
theorem C9_image_rewriter_witness :
    containsRegisty sampleConfig.whitelistedRegistries "docker.io/library/nginx" = false ∧
    (handleContainer sampleConfig (imageContainer "docker.io/library/nginx")
      "myregistry.io").1.Image = "myregistry.io/library/nginx" ∧
    (handleContainer sampleConfig (imageContainer "nginx:latest")
      "myregistry.io").1.Image = "myregistry.io/nginx:latest" ∧
    (handleContainer sampleConfig (imageContainer "repo/name")
      "myregistry.io").1.Image = "myregistry.io/repo/name" :=
  ⟨by decide,
   ((C9_image_rewriter sampleConfig (imageContainer "docker.io/library/nginx")
      "myregistry.io" (by decide)).2.2.2.2 (by decide)).2.trans (by decide),
   ((C9_image_rewriter sampleConfig (imageContainer "nginx:latest")
      "myregistry.io" (by decide)).2.2.2.1 (by decide)).trans (by decide),
   ((C9_image_rewriter sampleConfig (imageContainer "repo/name")
      "myregistry.io" (by decide)).2.2.2.1 (by decide)).trans (by decide)⟩

/-- C10: in a non-exempt namespace, a pod with at least one container or init
container, all of whose images are approved, gets the validate decision
allowed=true with no cause. -/
theorem C10_validate_allows_approved_pod (cfg : Config) (json : JSON)
    (request : AdmissionRequest) (pod : Pod)
    (hns : contains cfg.whitelistedNamespaces request.Namespace = false)
    (hpod : json.unmarshalPod request.Object.Raw = some pod)
    (hne : pod.Spec.Containers ++ pod.Spec.InitContainers ≠ [])
    (hall : ∀ c ∈ pod.Spec.Containers ++ pod.Spec.InitContainers,
      containsRegisty cfg.whitelistedRegistries c.Image = true) :
    validateAdmissionResponse cfg json request =
      .ok { Allowed := true, Result := none, Patch := none, PatchType := none } := by
  rw [validateAdmissionResponse_eq cfg json request pod hns hpod,
    inspectContainers_approved cfg _ _ hall]
  have hemp : (pod.Spec.Containers ++ pod.Spec.InitContainers).isEmpty = false := by
    cases hl : pod.Spec.Containers ++ pod.Spec.InitContainers with
    | nil => exact absurd hl hne
    | cons a l => rfl
  simp [hemp]

/-- Scenario B under validation: the approved image is allowed. -/
theorem C10_validate_allows_approved_pod_witness :
    validateAdmissionResponse sampleConfig (sampleJSON podB) (sampleRequest "default") =
      .ok { Allowed := true, Result := none, Patch := none, PatchType := none } :=
  C10_validate_allows_approved_pod sampleConfig (sampleJSON podB) (sampleRequest "default")
    podB (by decide) rfl (by decide) (by decide)

/-- C11: in a non-exempt namespace, a pod with zero containers and zero init
containers gets the validate decision allowed=false with no cause. -/
theorem C11_empty_pod_denied_without_cause (cfg : Config) (json : JSON)
    (request : AdmissionRequest) (pod : Pod)
    (hns : contains cfg.whitelistedNamespaces request.Namespace = false)
    (hpod : json.unmarshalPod request.Object.Raw = some pod)
    (hc : pod.Spec.Containers = []) (hi : pod.Spec.InitContainers = []) :
    validateAdmissionResponse cfg json request =
      .ok { Allowed := false, Result := none, Patch := none, PatchType := none } := by
  rw [validateAdmissionResponse_eq cfg json request pod hns hpod, hc, hi]
  rfl

/-- Scenario E: the empty pod in the namespace "default". -/
theorem C11_empty_pod_witness :
    validateAdmissionResponse sampleConfig (sampleJSON podEmpty) (sampleRequest "default") =
      .ok { Allowed := false, Result := none, Patch := none, PatchType := none } :=
  C11_empty_pod_denied_without_cause sampleConfig (sampleJSON podEmpty)
    (sampleRequest "default") podEmpty (by decide) rfl rfl rfl

/-- C12: `contains W n` is true exactly when some pattern p of W equals n or has n
as a substring (the pattern is the haystack); it is false for the empty list.
Under the whitelist "kube-system" the namespaces "kube-system" and "kube" are
exempt and "kube-system-2" is not. -/
theorem C12_namespace_classifier (W : List String) (n : String) :
    (contains W n = true ↔ ∃ p ∈ W, p = n ∨ n.data <:+: p.data) ∧
    contains [] n = false ∧
    contains ["kube-system"] "kube-system" = true ∧
    contains ["kube-system"] "kube" = true ∧
    contains ["kube-system"] "kube-system-2" = false :=
  ⟨contains_iff W n, rfl, by decide, by decide, by decide⟩

/-- C13: `containsRegisty W r` is true exactly when some pattern p of W equals r or
is a substring of r (the image is the haystack); it is false for the empty list.
Under the whitelist "myregistry.io" the image "myregistry.io/app:1.0" is approved
and "myregistry" is not. -/
theorem C13_registry_classifier (W : List String) (r : String) :
    (containsRegisty W r = true ↔ ∃ p ∈ W, p = r ∨ p.data <:+: r.data) ∧
    containsRegisty [] r = false ∧
    containsRegisty ["myregistry.io"] "myregistry.io/app:1.0" = true ∧
    containsRegisty ["myregistry.io"] "myregistry" = false :=
  ⟨containsRegisty_iff W r, rfl, by decide, by decide⟩

/-- C14 (as stated, fails): two requests that are outside the listed failures and
still get status 400 with no body. In the first the envelope and the pod decode,
the namespace is not exempt and the response would serialise, but the patch list
does not serialise. In the second the body cannot be read. -/
theorem C14_counterexample_other_requests_rejected :
    (failingPatchJSON podA).unmarshalAdmissionReview [] =
      some { Request := some (sampleRequest "default"), Response := none } ∧
    contains sampleConfig.whitelistedNamespaces (sampleRequest "default").Namespace = false ∧
    (failingPatchJSON podA).unmarshalPod (sampleRequest "default").Object.Raw = some podA ∧
    (∀ ar, (failingPatchJSON podA).marshalAdmissionReview ar = some []) ∧
    mutateAdmissionReviewHandler sampleConfig (failingPatchJSON podA) (some []) =
      .status 400 none ∧
    mutateAdmissionReviewHandler sampleConfig (sampleJSON podA) none = .status 400 none ∧
    validateAdmissionReviewHandler sampleConfig (sampleJSON podA) none = .status 400 none :=
  ⟨rfl, by decide, rfl, fun _ => rfl, rfl, rfl, rfl⟩

/-- C14 (amended): both handlers answer status 400 with no body when the body
cannot be read, when the envelope does not decode, and, for an envelope with a
request, when the namespace is not exempt and the pod does not decode; the
mutate handler does so also when a non-empty patch list does not serialise. For
an envelope with a request, in every other case the handler answers status 500
with no body when the response envelope does not serialise, and status 200 with
the serialised envelope otherwise. -/
theorem C14_decode_failures_are_rejections (cfg : Config) (json : JSON) :
    (mutateAdmissionReviewHandler cfg json none = .status StatusBadRequest none ∧
     validateAdmissionReviewHandler cfg json none = .status StatusBadRequest none) ∧
    (∀ data, json.unmarshalAdmissionReview data = none →
      mutateAdmissionReviewHandler cfg json (some data) = .status StatusBadRequest none ∧
      validateAdmissionReviewHandler cfg json (some data) = .status StatusBadRequest none) ∧
    (∀ data ar request, json.unmarshalAdmissionReview data = some ar →
      ar.Request = some request →
      (contains cfg.whitelistedNamespaces request.Namespace = false →
        json.unmarshalPod request.Object.Raw = none →
        mutateAdmissionReviewHandler cfg json (some data) = .status StatusBadRequest none ∧
        validateAdmissionReviewHandler cfg json (some data) = .status StatusBadRequest none) ∧
      ((contains cfg.whitelistedNamespaces request.Namespace = true ∨
          ∃ pod, json.unmarshalPod request.Object.Raw = some pod) →
        (∃ resp, validateAdmissionResponse cfg json request = .ok resp ∧
          validateAdmissionReviewHandler cfg json (some data) =
            match json.marshalAdmissionReview { Request := none, Response := some resp } with
            | none => .status StatusInternalServerError none
            | some out => .status StatusOK (some out)) ∧
        (∃ patches, recordPatches cfg json request = .ok patches ∧
          (patches ≠ [] → json.marshalPatches (patches ++ [pullSecretPatch cfg]) = none →
            mutateAdmissionReviewHandler cfg json (some data) =
              .status StatusBadRequest none) ∧
          ((patches = [] ∨
              ∃ patchContent,
                json.marshalPatches (patches ++ [pullSecretPatch cfg]) = some patchContent) →
            ∃ resp, mutateAdmissionResponse cfg json request = .ok resp ∧
              mutateAdmissionReviewHandler cfg json (some data) =
                match json.marshalAdmissionReview { Request := none, Response := some resp } with
                | none => .status StatusInternalServerError none
                | some out => .status StatusOK (some out))))) := by
  refine ⟨⟨rfl, rfl⟩, ?_, ?_⟩
  · intro data hd
    simp [mutateAdmissionReviewHandler, validateAdmissionReviewHandler,
      readRequest_undecoded json data hd]
  · intro data ar request hd hr
    have hreq := readRequest_ok json data ar request hd hr
    refine ⟨?_, ?_⟩
    · intro hns hpod
      have hrec := recordPatches_undecoded cfg json request hns hpod
      simp [mutateAdmissionReviewHandler, validateAdmissionReviewHandler, hreq,
        validateAdmissionResponse_undecoded cfg json request hns hpod,
        mutateAdmissionResponse, hrec]
    · intro hcase
      refine ⟨?_, ?_⟩
      · obtain ⟨resp, hresp⟩ := validateAdmissionResponse_reached cfg json request hcase
        refine ⟨resp, hresp, ?_⟩
        simp only [validateAdmissionReviewHandler, hreq, hresp, writeResponse]
      · obtain ⟨patches, hrec⟩ := recordPatches_reached cfg json request hcase
        refine ⟨patches, hrec, ?_, ?_⟩
        · intro hne hm
          simp only [mutateAdmissionReviewHandler, hreq,
            mutateAdmissionResponse_unserialised cfg json request patches hrec hne hm]
        · intro hok
          have hresp : ∃ resp, mutateAdmissionResponse cfg json request = .ok resp := by
            by_cases hnil : patches = []
            · subst hnil
              exact ⟨_, mutateAdmissionResponse_of_nil cfg json request hrec⟩
            · rcases hok with hok | ⟨patchContent, hm⟩
              · exact absurd hok hnil
              · exact ⟨_, mutateAdmissionResponse_serialised cfg json request patches
                  patchContent hrec hnil hm⟩
          obtain ⟨resp, hresp⟩ := hresp
          refine ⟨resp, hresp, ?_⟩
          simp only [mutateAdmissionReviewHandler, hreq, hresp, writeResponse]

/-- A pod that does not decode in the namespace "default": both handlers answer
status 400 with no body. -/
theorem C14_decode_failures_witness :
    (failingPodJSON podA).unmarshalAdmissionReview [] =
      some { Request := some (sampleRequest "default"), Response := none } ∧
    contains sampleConfig.whitelistedNamespaces (sampleRequest "default").Namespace = false ∧
    (failingPodJSON podA).unmarshalPod (sampleRequest "default").Object.Raw = none ∧
    mutateAdmissionReviewHandler sampleConfig (failingPodJSON podA) (some []) =
      .status StatusBadRequest none ∧
    validateAdmissionReviewHandler sampleConfig (failingPodJSON podA) (some []) =
      .status StatusBadRequest none :=
  ⟨rfl, by decide, rfl,
   ((C14_decode_failures_are_rejections sampleConfig (failingPodJSON podA)).2.2 []
      { Request := some (sampleRequest "default"), Response := none }
      (sampleRequest "default") rfl rfl).1 (by decide) rfl⟩

/-- C15 (the code departs from the claim): for a body that decodes to an envelope
without a request, both handlers end in a nil pointer dereference when reading
`ar.Request.Namespace`, not in a status-coded response. -/
theorem C15_envelope_without_request_panics (cfg : Config) :
    nilRequestJSON.unmarshalAdmissionReview [] = some { Request := none, Response := none } ∧
    mutateAdmissionReviewHandler cfg nilRequestJSON (some []) = .panic ∧
    validateAdmissionReviewHandler cfg nilRequestJSON (some []) = .panic :=
  ⟨rfl, rfl, rfl⟩

/-- C16: when the target registry t is an entry of the registry whitelist, the
reference that `handleContainer` computes for a non-approved image begins with
t ++ "/" and is approved by `containsRegisty`; and when the configured target
registry is whitelisted, the mutate engine run on the pod in which every image
has been replaced by its rewritten value records no patch operation. -/
theorem C16_mutation_fixed_point (cfg : Config) :
    (∀ t ∈ cfg.whitelistedRegistries, ∀ c : Container,
      containsRegisty cfg.whitelistedRegistries c.Image = false →
      (∃ rest, (handleContainer cfg c t).1.Image = t ++ "/" ++ rest) ∧
      containsRegisty cfg.whitelistedRegistries (handleContainer cfg c t).1.Image = true) ∧
    (cfg.dockerRegistryUrl ∈ cfg.whitelistedRegistries →
      ∀ (json : JSON) (request : AdmissionRequest) (pod : Pod),
        json.unmarshalPod request.Object.Raw = some (rewrittenPod cfg pod) →
        recordPatches cfg json request = .ok [] ∧
        mutateAdmissionResponse cfg json request =
          .ok { Allowed := true, Result := none, Patch := none, PatchType := none }) := by
  refine ⟨?_, ?_⟩
  · intro t ht c hc
    refine ⟨?_, handleContainer_image_approved cfg c t ht⟩
    rw [handleContainer_rejected cfg c t hc]
    exact ImageRewriter_begins c.Image t
  · intro ht json request pod hpod
    apply mutate_of_all_approved cfg json request (rewrittenPod cfg pod) hpod
    intro c hc
    simp only [rewrittenPod, List.mem_append, List.mem_map] at hc
    rcases hc with ⟨c0, _, rfl⟩ | ⟨c0, _, rfl⟩ <;>
      exact handleContainer_image_approved cfg c0 _ ht

/-- Scenario A mutated twice: the first run rewrites "nginx:latest" to
"myregistry.io/nginx:latest", the second run records nothing. -/
theorem C16_mutation_fixed_point_witness :
    sampleConfig.dockerRegistryUrl ∈ sampleConfig.whitelistedRegistries ∧
    rewrittenPod sampleConfig podA =
      samplePod [imageContainer "myregistry.io/nginx:latest"] [] ∧
    recordPatches sampleConfig (sampleJSON (rewrittenPod sampleConfig podA))
      (sampleRequest "default") = .ok [] ∧
    mutateAdmissionResponse sampleConfig (sampleJSON (rewrittenPod sampleConfig podA))
      (sampleRequest "default") =
      .ok { Allowed := true, Result := none, Patch := none, PatchType := none } :=
  ⟨by decide, by decide,
   (C16_mutation_fixed_point sampleConfig).2 (by decide)
     (sampleJSON (rewrittenPod sampleConfig podA)) (sampleRequest "default") podA rfl⟩

/-- C17: a registry whitelist with the empty string as an entry approves every
image reference. The split on "," has such an entry when the configured string is
empty or has a leading, trailing or doubled comma. With such a whitelist, in a
non-exempt namespace, the mutate engine records no patch and answers without
patch, and the validate engine allows every pod with at least one container or
init container. -/
theorem C17_empty_registry_entry_approves_everything :
    (∀ (W : List String) (r : String), "" ∈ W → containsRegisty W r = true) ∧
    ("" ∈ strings.Split "" ',' ∧
     (∀ s : String, "" ∈ strings.Split ("," ++ s) ',') ∧
     (∀ s : String, "" ∈ strings.Split (s ++ ",") ',') ∧
     (∀ a b : String, "" ∈ strings.Split (a ++ ",," ++ b) ',')) ∧
    (∀ getenv : String → String,
      (Config.load getenv).whitelistedRegistries =
        strings.Split (getenv "WHITELIST_REGISTRIES") ',') ∧
    (∀ (cfg : Config) (json : JSON) (request : AdmissionRequest) (pod : Pod),
      "" ∈ cfg.whitelistedRegistries →
      contains cfg.whitelistedNamespaces request.Namespace = false →
      json.unmarshalPod request.Object.Raw = some pod →
      recordPatches cfg json request = .ok [] ∧
      mutateAdmissionResponse cfg json request =
        .ok { Allowed := true, Result := none, Patch := none, PatchType := none } ∧
      (pod.Spec.Containers ++ pod.Spec.InitContainers ≠ [] →
        validateAdmissionResponse cfg json request =
          .ok { Allowed := true, Result := none, Patch := none, PatchType := none })) := by
  refine ⟨containsRegisty_of_empty_entry, ⟨by decide, ?_, ?_, ?_⟩, fun _ => rfl, ?_⟩
  · intro s
    apply Split_mem_of_chars
    rw [String.data_append]
    show [] ∈ strings.splitChars ',' [] (',' :: s.data)
    simp [strings.splitChars]
  · intro s
    apply Split_mem_of_chars
    rw [String.data_append]
    obtain ⟨pre, hpre⟩ := strings.splitChars_after ',' [] s.data []
    show [] ∈ strings.splitChars ',' [] (s.data ++ [','])
    rw [hpre]
    simp [strings.splitChars]
  · intro a b
    apply Split_mem_of_chars
    rw [String.data_append, String.data_append, List.append_assoc]
    obtain ⟨pre, hpre⟩ := strings.splitChars_after ',' [] a.data (',' :: b.data)
    show [] ∈ strings.splitChars ',' [] (a.data ++ ([',', ','] ++ b.data))
    rw [show a.data ++ ([',', ','] ++ b.data) = a.data ++ ',' :: (',' :: b.data) from rfl, hpre]
    simp [strings.splitChars]
  · intro cfg json request pod hW hns hpod
    have hall : ∀ c ∈ pod.Spec.Containers ++ pod.Spec.InitContainers,
        containsRegisty cfg.whitelistedRegistries c.Image = true :=
      fun c _ => containsRegisty_of_empty_entry _ _ hW
    obtain ⟨hrec, hmut⟩ := mutate_of_all_approved cfg json request pod hpod hall
    exact ⟨hrec, hmut, fun hne => validate_of_all_approved cfg json request pod hns hpod hne hall⟩

/-- With no environment variable set, the registry whitelist is the one-entry list
of the empty string, and the image "docker.io/library/nginx" in the namespace
"default" is neither patched nor denied. -/
theorem C17_empty_registry_entry_witness :
    unsetConfig.whitelistedRegistries = [""] ∧
    containsRegisty unsetConfig.whitelistedRegistries "docker.io/library/nginx" = true ∧
    contains unsetConfig.whitelistedNamespaces (sampleRequest "default").Namespace = false ∧
    recordPatches unsetConfig (sampleJSON podC) (sampleRequest "default") = .ok [] ∧
    mutateAdmissionResponse unsetConfig (sampleJSON podC) (sampleRequest "default") =
      .ok { Allowed := true, Result := none, Patch := none, PatchType := none } ∧
    validateAdmissionResponse unsetConfig (sampleJSON podC) (sampleRequest "default") =
      .ok { Allowed := true, Result := none, Patch := none, PatchType := none } :=
  ⟨by decide,
   C17_empty_registry_entry_approves_everything.1 _ _ (by decide),
   by decide,
   (C17_empty_registry_entry_approves_everything.2.2.2 unsetConfig (sampleJSON podC)
      (sampleRequest "default") podC (by decide) (by decide) rfl).1,
   (C17_empty_registry_entry_approves_everything.2.2.2 unsetConfig (sampleJSON podC)
      (sampleRequest "default") podC (by decide) (by decide) rfl).2.1,
   (C17_empty_registry_entry_approves_everything.2.2.2 unsetConfig (sampleJSON podC)
      (sampleRequest "default") podC (by decide) (by decide) rfl).2.2 (by decide)⟩

/-- C18: `contains W ""` is true for every non-empty whitelist W, and the split of
a configured string on "," is never empty; so a request in the namespace "" is
allowed by both engines, whatever the raw object and the decoder, with no patch
and no cause. Under the whitelist with the empty string as its only entry, a
namespace is exempt exactly when it is the empty string. -/
theorem C18_empty_namespace_always_exempt :
    (∀ W : List String, W ≠ [] → contains W "" = true) ∧
    (∀ s : String, strings.Split s ',' ≠ []) ∧
    (∀ getenv : String → String,
      (Config.load getenv).whitelistedNamespaces =
        strings.Split (getenv "WHITELIST_NAMESPACES") ',') ∧
    (∀ (cfg : Config) (json : JSON) (raw : Bytes), cfg.whitelistedNamespaces ≠ [] →
      mutateAdmissionResponse cfg json { Namespace := "", Object := { Raw := raw } } =
        .ok { Allowed := true, Result := none, Patch := none, PatchType := none } ∧
      validateAdmissionResponse cfg json { Namespace := "", Object := { Raw := raw } } =
        .ok { Allowed := true, Result := none, Patch := none, PatchType := none }) ∧
    (∀ n : String, contains [""] n = true ↔ n = "") := by
  refine ⟨contains_empty, fun s => Split_ne_nil s ',', fun _ => rfl, ?_, ?_⟩
  · intro cfg json raw hW
    exact contains_exempt_response cfg json _ (contains_empty _ hW)
  · intro n
    rw [contains_iff]
    constructor
    · rintro ⟨p, hp, h⟩
      rw [List.mem_singleton] at hp
      subst hp
      rcases h with h | h
      · exact h.symm
      · exact String.ext (List.eq_nil_of_infix_nil h)
    · intro h
      exact ⟨"", List.mem_singleton.mpr rfl, Or.inl h.symm⟩

/-- Under the namespace whitelist "kube-system" a request in the namespace "" with
a pod that does not decode is allowed by both engines. -/
theorem C18_empty_namespace_witness :
    sampleConfig.whitelistedNamespaces ≠ [] ∧
    contains sampleConfig.whitelistedNamespaces "" = true ∧
    mutateAdmissionResponse sampleConfig (failingPodJSON podC)
        { Namespace := "", Object := { Raw := [] } } =
      .ok { Allowed := true, Result := none, Patch := none, PatchType := none } ∧
    validateAdmissionResponse sampleConfig (failingPodJSON podC)
        { Namespace := "", Object := { Raw := [] } } =
      .ok { Allowed := true, Result := none, Patch := none, PatchType := none } :=
  ⟨by decide,
   C18_empty_namespace_always_exempt.1 _ (by decide),
   C18_empty_namespace_always_exempt.2.2.2.1 sampleConfig (failingPodJSON podC) []
     (by decide)⟩

end Kubenab
